import Mathlib

/-!
# MiniC compiler: verification of the specified behaviour against the code

Shallow embedding of the MiniC teaching compiler (lexer, parser
expression grammar, semantic analyzer, IR generator, TAC optimizer,
liveness-based dead-code elimination).  Every definition mirrors the
corresponding Python function of the repository; fallible code paths
(Python exceptions) are modelled with `Option`/`Except` results.
-/

namespace MiniC

/-! ## Python-modelling helpers -/

/-- Python `str.isdigit()` restricted to ASCII, which is the only case the
TAC operand strings exercise: nonempty and all characters are `0`-`9`. -/
def pyIsDigit (s : String) : Bool :=
  s ≠ "" && s.toList.all Char.isDigit

/-- Split a character list at its first space, if any. -/
def splitFirstSpace : List Char → Option (List Char × List Char)
  | [] => none
  | c :: rest =>
    if c = ' ' then some ([], rest)
    else (splitFirstSpace rest).map (fun p => (c :: p.1, p.2))

/-- Python `s.split(' ', 1)`: split at the first space only.  Returns the
list of parts (one part when there is no space, two otherwise). -/
def pySplit1 (s : String) : List String :=
  match splitFirstSpace s.toList with
  | none => [s]
  | some (a, b) => [String.mk a, String.mk b]

/-- The numeric value of a decimal digit string. -/
def digitsToNat (cs : List Char) : Nat :=
  cs.foldl (fun n c => n * 10 + (c.toNat - 48)) 0

/-- Python `int(s)` on a digit string (guarded by `isdigit` at every call
site in the optimizer), as an integer. -/
def pyIntOfDigits (s : String) : Int :=
  Int.ofNat (digitsToNat s.toList)

/-- Python truthiness of an optional string (`None` and `""` are falsy). -/
def optStrTruthy : Option String → Bool
  | some s => s ≠ ""
  | none => false

/-- Does `s` start with `pat`? -/
def charsStartWith : List Char → List Char → Bool
  | _, [] => true
  | [], _ :: _ => false
  | c :: cs, p :: ps => c = p && charsStartWith cs ps

/-- Python substring test `pat in s` (an empty pattern is contained in
everything, as in Python). -/
def charsContains (pat : List Char) : List Char → Bool
  | [] => charsStartWith [] pat
  | c :: rest => charsStartWith (c :: rest) pat || charsContains pat rest

def strContains (s pat : String) : Bool :=
  charsContains pat.toList s.toList

/-- Python `s.replace(pat, rep)` for a nonempty pattern: replace each
leftmost non-overlapping occurrence.  The fuel argument only needs to
cover the number of steps, at most the length of the list. -/
def replaceCharsGo (pat rep : List Char) : Nat → List Char → List Char
  | 0, s => s
  | fuel + 1, s =>
    match s with
    | [] => []
    | c :: rest =>
      if pat ≠ [] ∧ charsStartWith s pat then
        rep ++ replaceCharsGo pat rep fuel (s.drop pat.length)
      else c :: replaceCharsGo pat rep fuel rest

def pyReplace (s pat rep : String) : String :=
  String.mk (replaceCharsGo pat.toList rep.toList s.toList.length s.toList)

/-! ## TAC data model (`ir_generator.TACInstruction`)

The Python `src1` field dynamically holds `None`, a string, or (for
`call`) a list of argument strings; `Src1` is that sum. -/

inductive Src1 where
  | none
  | str (s : String)
  | list (l : List String)
deriving Repr, DecidableEq

/-- Python truthiness of the `src1` field. -/
def Src1.truthy : Src1 → Bool
  | .none => false
  | .str s => s ≠ ""
  | .list l => !l.isEmpty

/-- The `src1` value as a dictionary/set key (`None` or a string); the
unhashable-list case is handled at each call site. -/
def Src1.key : Src1 → Option String
  | .str s => some s
  | _ => Option.none

structure TACInstruction where
  op : String
  dest : Option String := Option.none
  src1 : Src1 := Src1.none
  src2 : Option String := Option.none
  label : Option String := Option.none
deriving Repr, DecidableEq

/-! ## Optimizer (`optimizer.TACOptimizer`)

Each pass returns `Option`: `none` models an uncaught Python exception
(`AttributeError`, `TypeError`, `IndexError`, `ZeroDivisionError`,
`UnboundLocalError`). -/

/-- The `constants` dictionary of `constant_propagation`: keys may be
`None` (Python `dict` accepts `None` keys via `instr.dest`). -/
def ConstMap := Option String → Option String

def ConstMap.empty : ConstMap := fun _ => Option.none

def ConstMap.insert (m : ConstMap) (k : Option String) (v : String) : ConstMap :=
  fun x => if x = k then some v else m x

def ConstMap.delete (m : ConstMap) (k : Option String) : ConstMap :=
  fun x => if x = k then Option.none else m x

/-- First phase of `TACOptimizer.constant_propagation` (lines 40-52): the
forward scan that accumulates `var -> constant` bindings.  An `assign`
whose `src1` is a Python list crashes (either `AttributeError` on
`.isdigit` or `TypeError` on an unhashable dict key). -/
def cpScan : List TACInstruction → ConstMap → Option ConstMap
  | [], m => some m
  | i :: rest, m =>
    if i.op = "assign" then
      match i.src1 with
      | .list _ => Option.none
      | .str s =>
        if pyIsDigit s then cpScan rest (m.insert i.dest s)
        else
          match m (some s) with
          | some v => cpScan rest (m.insert i.dest v)
          | Option.none =>
            cpScan rest (if (m i.dest).isSome then m.delete i.dest else m)
      | .none =>
        match m Option.none with
        | some v => cpScan rest (m.insert i.dest v)
        | Option.none =>
          cpScan rest (if (m i.dest).isSome then m.delete i.dest else m)
    else if i.op = "binop" ∨ i.op = "unop" then
      cpScan rest m
    else
      cpScan rest (if (m i.dest).isSome then m.delete i.dest else m)

/-- Second phase of `TACOptimizer.constant_propagation` (lines 54-66): the
rewrite of a single instruction.  Note that the source also rewrites the
`dest` field when it is bound in the map (line 61-62). -/
def cpRewrite (m : ConstMap) (i : TACInstruction) : TACInstruction :=
  let i :=
    match i.src1 with
    | .list l =>
      if l.isEmpty then i
      else { i with src1 := .list (l.map (fun x => (m (some x)).getD x)) }
    | .str s =>
      if s ≠ "" then
        match m (some s) with
        | some v => { i with src1 := .str v }
        | Option.none => i
      else i
    | .none => i
  let i :=
    match i.dest with
    | some d =>
      if d ≠ "" then
        match m (some d) with
        | some v => { i with dest := some v }
        | Option.none => i
      else i
    | Option.none => i
  match i.src2 with
  | some s2 =>
    if s2 ≠ "" then
      match splitFirstSpace s2.toList with
      | some (a, b) =>
        match m (some (String.mk b)) with
        | some v => { i with src2 := some (String.mk a ++ " " ++ v) }
        | Option.none => i
      | Option.none => i
    else i
  | Option.none => i

/-- `TACOptimizer.constant_propagation`: scan, then rewrite every
instruction with the final bindings. -/
def constantPropagation (l : List TACInstruction) : Option (List TACInstruction) :=
  (cpScan l ConstMap.empty).map (fun m => l.map (cpRewrite m))

/-- `TACOptimizer.compute_constant`: integer folding; `//` and `%` with a
zero right operand raise `ZeroDivisionError` (modelled as `none`).
Python `//` and `%` are floor division and floor modulus. -/
def computeConstant (op : String) (left right : Int) : Option Int :=
  if op = "+" then some (left + right)
  else if op = "-" then some (left - right)
  else if op = "*" then some (left * right)
  else if op = "/" then
    if right = 0 then Option.none else some (Int.fdiv left right)
  else if op = "%" then
    if right = 0 then Option.none else some (Int.fmod left right)
  else if op = "&&" then some (if left ≠ 0 ∧ right ≠ 0 then 1 else 0)
  else if op = "||" then some (if left ≠ 0 ∨ right ≠ 0 then 1 else 0)
  else if op = "<" then some (if left < right then 1 else 0)
  else if op = ">" then some (if left > right then 1 else 0)
  else if op = "<=" then some (if left ≤ right then 1 else 0)
  else if op = ">=" then some (if left ≥ right then 1 else 0)
  else if op = "==" then some (if left = right then 1 else 0)
  else if op = "!=" then some (if left ≠ right then 1 else 0)
  else some 0

/-- One instruction of `TACOptimizer.constant_folding`.  A `binop` whose
`src2` has no space raises `IndexError`; a `unop` with a digit operand
whose operator is neither `-` nor `!` leaves `result` unbound and raises
`UnboundLocalError` (both modelled as `none`). -/
def foldInstr (i : TACInstruction) : Option TACInstruction :=
  if i.op = "binop" then
    match i.src2 with
    | Option.none => Option.none
    | some s2 =>
      match pySplit1 s2 with
      | [op, right] =>
        match i.src1 with
        | .str s =>
          if pyIsDigit s && pyIsDigit right then
            (computeConstant op (pyIntOfDigits s) (pyIntOfDigits right)).map
              (fun r => { op := "assign", dest := i.dest, src1 := .str (toString r) })
          else some i
        | .none => some i
        | .list l => if l.isEmpty then some i else Option.none
      | _ => Option.none
  else if i.op = "unop" then
    match i.src2 with
    | some s2 =>
      if pyIsDigit s2 then
        (match i.src1 with
         | .str s =>
           if s = "-" then some (-(pyIntOfDigits s2))
           else if s = "!" then some (if pyIntOfDigits s2 ≠ 0 then (0 : Int) else 1)
           else Option.none
         | _ => Option.none).map
          (fun r => { op := "assign", dest := i.dest, src1 := .str (toString r) })
      else some i
    | Option.none => some i
  else some i

/-- `TACOptimizer.constant_folding` over the whole sequence. -/
def constantFolding : List TACInstruction → Option (List TACInstruction)
  | [] => some []
  | i :: rest => do
    let i' ← foldInstr i
    let rest' ← constantFolding rest
    pure (i' :: rest')

/-! ## DAG builder (`dag_generator.DAGGenerator`)

`DAGNode` equality and hashing are structural over
`(op, left, right, value)`, and the `nodes` dictionary deduplicates by
that key, so object identity coincides with structural identity and a
node is represented by its structural key.  The three constructors are
the three shapes the source ever builds: `('var', None, None, value)`
leaves, unary `(op, left, None, None)` (the unop operator comes from
`src1`, which may be `None`), and binary `(op, left, right, None)`. -/

inductive DKey where
  | var (value : Option String)
  | op1 (op : Option String) (left : DKey)
  | op2 (op : String) (left : DKey) (right : DKey)
deriving Repr, DecidableEq

/-- The mutable state of a `DAGGenerator`: `node_list` in insertion
order, per-node `users` lists (append order), per-node `temp_var`, and
the `var_to_node` dictionary (whose keys may be `None`). -/
structure DagState where
  nodesList : List DKey
  users : DKey → List DKey
  tempVar : DKey → Option String
  varToNode : Option String → Option DKey

def DagState.empty : DagState :=
  { nodesList := [], users := fun _ => [], tempVar := fun _ => Option.none,
    varToNode := fun _ => Option.none }

/-- Append `n` to the `users` list of `k`. -/
def DagState.addUser (st : DagState) (k n : DKey) : DagState :=
  { st with users := fun x => if x = k then st.users x ++ [n] else st.users x }

/-- `DAGGenerator.get_or_create_node`: return the existing node for the
key, or create it, record it in `node_list`, and append it to the
`users` of its children (twice when both children are the same node). -/
def getOrCreateNode (k : DKey) (st : DagState) : DagState × DKey :=
  if st.nodesList.contains k then (st, k)
  else
    let st := { st with nodesList := st.nodesList ++ [k] }
    let st :=
      match k with
      | .var _ => st
      | .op1 _ l => st.addUser l k
      | .op2 _ l r => (st.addUser l k).addUser r k
    (st, k)

/-- `DAGGenerator.get_operand_node`. -/
def getOperandNode (operand : Option String) (st : DagState) : DagState × DKey :=
  match st.varToNode operand with
  | some n => (st, n)
  | Option.none => getOrCreateNode (.var operand) st

/-- Bind `dest` to the node and set the node's `temp_var` to `dest`
(`var_to_node[dest] = node; node.temp_var = dest`). -/
def DagState.bindDest (st : DagState) (dest : Option String) (n : DKey) : DagState :=
  { st with
    varToNode := fun x => if x = dest then some n else st.varToNode x,
    tempVar := fun x => if x = n then dest else st.tempVar x }

/-- `DAGGenerator.process_instruction`.  A list-valued `src1` used as a
dictionary key (or as a node-key component for `unop`) is unhashable and
raises `TypeError`; a `binop` with missing or space-free `src2` raises. -/
def processInstruction (st : DagState) (i : TACInstruction) : Option DagState :=
  if i.op = "assign" then
    match i.src1 with
    | .list _ => Option.none
    | s1 =>
      match st.varToNode s1.key with
      | some n => some (st.bindDest i.dest n)
      | Option.none =>
        let (st, n) := getOrCreateNode (.var s1.key) st
        some (st.bindDest i.dest n)
  else if i.op = "binop" then
    match i.src2 with
    | Option.none => Option.none
    | some s2 =>
      match pySplit1 s2 with
      | [op, right] =>
        match i.src1 with
        | .list _ => Option.none
        | s1 =>
          let (st, ln) := getOperandNode s1.key st
          let (st, rn) := getOperandNode (some right) st
          let (st, n) := getOrCreateNode (.op2 op ln rn) st
          some (st.bindDest i.dest n)
      | _ => Option.none
  else if i.op = "unop" then
    match i.src1 with
    | .list _ => Option.none
    | s1 =>
      let (st, opnd) := getOperandNode i.src2 st
      let (st, n) := getOrCreateNode (.op1 s1.key opnd) st
      some (st.bindDest i.dest n)
  else
    some st

/-- `DAGGenerator.build_dag`: fresh state, then process each instruction. -/
def buildDag (l : List TACInstruction) : Option DagState :=
  l.foldlM processInstruction DagState.empty

/-- `DAGGenerator.detect_cse`: the groups `[temp_var] ++ [truthy user
temp_vars]` of every node with more than one user and a truthy
`temp_var`, in `node_list` order (= the `cse` dict insertion order). -/
def detectCse (st : DagState) : List (List String) :=
  st.nodesList.filterMap (fun n =>
    if (st.users n).length > 1 ∧ optStrTruthy (st.tempVar n) then
      some ((st.tempVar n).getD "" ::
        (st.users n).filterMap (fun u =>
          if optStrTruthy (st.tempVar u) then st.tempVar u else Option.none))
    else Option.none)

/-- One rewrite sweep of `common_subexpression_elimination` (lines
139-145): replace `temp` by `first` as `dest`, as `src1`, and as a
substring of `src2`. -/
def cseRewriteTemp (first temp : String) (l : List TACInstruction) :
    List TACInstruction :=
  l.map (fun i =>
    let i := if i.dest = some temp then { i with dest := some first } else i
    let i := if i.src1 = Src1.str temp then { i with src1 := .str first } else i
    match i.src2 with
    | some s2 =>
      if s2 ≠ "" ∧ strContains s2 temp then
        { i with src2 := some (pyReplace s2 temp first) }
      else i
    | Option.none => i)

/-- `TACOptimizer.common_subexpression_elimination`: build the DAG,
detect the CSE groups, then for each group (in order) replace every
later temporary by the group's first one, each sweep seeing the previous
sweeps' updates. -/
def commonSubexpressionElimination (l : List TACInstruction) :
    Option (List TACInstruction) :=
  (buildDag l).map (fun st =>
    (detectCse st).foldl (fun acc temps =>
      if temps.length > 1 then
        match temps with
        | first :: restTemps =>
          restTemps.foldl (fun acc2 temp => cseRewriteTemp first temp acc2) acc
        | [] => acc
      else acc) l)

/-! ## Dead-code elimination (`TACOptimizer.dead_code_elimination`) -/

/-- The `live_vars` set: elements are strings or `None` (e.g. a `cjump`
with no `dest` adds `None`).  Sets are modelled as duplicate-free lists;
only membership is ever observed. -/
def liveAdd (x : Option String) (s : List (Option String)) : List (Option String) :=
  if s.contains x then s else s ++ [x]

def liveDiscard (x : Option String) (s : List (Option String)) : List (Option String) :=
  s.erase x

/-- One step of the backward pass of `compute_live_variables`.  An
`assign`/`binop` whose live `dest` has a list-valued `src1` raises
`TypeError` (`set.add` of a list); a live `binop` with `src2 = None`
raises `AttributeError` (both modelled as `none`).  A `call`'s
string-valued `src1` is iterated character by character by
`set.update`. -/
def computeLiveStep (s : List (Option String)) (i : TACInstruction) :
    Option (List (Option String)) :=
  if i.op = "return" then
    if optStrTruthy i.dest then some (liveAdd i.dest s) else some s
  else if i.op = "cjump" then
    some (liveAdd i.dest s)
  else if i.op = "assign" then
    if s.contains i.dest then
      match i.src1 with
      | .list _ => Option.none
      | s1 => some (liveDiscard i.dest (liveAdd s1.key s))
    else some (liveDiscard i.dest s)
  else if i.op = "binop" then
    if s.contains i.dest then
      match i.src1 with
      | .list _ => Option.none
      | s1 =>
        let s := liveAdd s1.key s
        match i.src2 with
        | Option.none => Option.none
        | some s2 =>
          match pySplit1 s2 with
          | [_, right] => some (liveDiscard i.dest (liveAdd (some right) s))
          | _ => some (liveDiscard i.dest s)
    else some (liveDiscard i.dest s)
  else if i.op = "unop" then
    if s.contains i.dest then some (liveDiscard i.dest (liveAdd i.src2 s))
    else some (liveDiscard i.dest s)
  else if i.op = "call" then
    if s.contains i.dest then
      match i.src1 with
      | .none => some (liveDiscard i.dest s)
      | .list args =>
        some (liveDiscard i.dest
          (args.foldl (fun acc x => liveAdd (some x) acc) s))
      | .str x =>
        if x = "" then some (liveDiscard i.dest s)
        else
          some (liveDiscard i.dest
            (x.toList.foldl (fun acc c => liveAdd (some (String.mk [c])) acc) s))
    else some (liveDiscard i.dest s)
  else if i.op = "param" then
    some (liveAdd i.dest s)
  else some s

/-- `TACOptimizer.compute_live_variables`: a single backward pass whose
final set is used globally by `dead_code_elimination`. -/
def computeLiveVariables (l : List TACInstruction) :
    Option (List (Option String)) :=
  l.reverse.foldlM computeLiveStep []

/-- `TACOptimizer.dead_code_elimination`: drop every
`assign`/`binop`/`unop`/`call` whose `dest` is not in the (single,
final) live set. -/
def deadCodeElimination (l : List TACInstruction) : Option (List TACInstruction) :=
  (computeLiveVariables l).map (fun live =>
    l.filter (fun i =>
      !(decide (i.op ∈ ["assign", "binop", "unop", "call"]) &&
        !live.contains i.dest)))

/-- `TACOptimizer.optimize`: the fixed schedule
propagation, folding, propagation, CSE, DCE. -/
def optimize (l : List TACInstruction) : Option (List TACInstruction) := do
  let l ← constantPropagation l
  let l ← constantFolding l
  let l ← constantPropagation l
  let l ← commonSubexpressionElimination l
  let l ← deadCodeElimination l
  pure l

/-! ## AST (`ast_nodes.py`)

The node dataclasses are disjoint subclasses of `ASTNode` (in
particular `Expr` is the binary-expression class, not a base class), so
the `isinstance` dispatches of the walkers correspond to a match on one
sum type. -/

/-- A Python literal value as stored in `Literal.value`.  Floating-point
values are carried as their source text: no claim depends on float
arithmetic. -/
inductive PyVal where
  | int (n : Int)
  | bool (b : Bool)
  | str (s : String)
  | float (raw : String)
deriving Repr, DecidableEq

/-- Python `str(value)` for a literal value. -/
def PyVal.pyStr : PyVal → String
  | .int n => toString n
  | .bool b => if b then "True" else "False"
  | .str s => s
  | .float raw => raw

inductive Node where
  | block (statements : List Node)
  | varDecl (varType name : String) (init : Option Node)
  | assignment (target : String) (value : Node)
  | ifStmt (cond thenBranch : Node) (elseBranch : Option Node)
  | whileStmt (cond body : Node)
  | forStmt (init : Option Node) (cond update : Option Node) (body : Node)
  | returnStmt (expr : Option Node)
  | expr (op : Option String) (left right : Node)
  | unaryExpr (op : String) (e : Node)
  | literal (value : PyVal) (typ : String)
  | varRef (name : String)
  | funcCall (name : String) (args : List Node)
deriving Repr

structure Function where
  retType : String
  name : String
  params : List (String × String)
  body : Node
deriving Repr

structure Program where
  functions : List Function
deriving Repr

/-! ## IR generator (`ir_generator.IRGenerator`) -/

/-- Insertion-ordered string dictionary update (`d[k] = v`). -/
def dictSet (d : List (String × String)) (k v : String) : List (String × String) :=
  match d with
  | [] => [(k, v)]
  | (k', v') :: rest => if k' = k then (k, v) :: rest else (k', v') :: dictSet rest k v

/-- The mutable fields of an `IRGenerator`. -/
structure IRState where
  instructions : List TACInstruction
  tempCount : Nat
  labelCount : Nat
  symbolTable : List (String × String)
deriving Repr, DecidableEq

/-- `IRGenerator.new_temp`: increment the counter, name from the new value. -/
def newTemp (st : IRState) : String × IRState :=
  let st := { st with tempCount := st.tempCount + 1 }
  ("t" ++ toString st.tempCount, st)

/-- `IRGenerator.new_label`. -/
def newLabel (st : IRState) : String × IRState :=
  let st := { st with labelCount := st.labelCount + 1 }
  ("L" ++ toString st.labelCount, st)

/-- `self.instructions.append(i)`. -/
def emit (i : TACInstruction) (st : IRState) : IRState :=
  { st with instructions := st.instructions ++ [i] }

mutual

/-- `IRGenerator.generate_statement`.  A `Literal`, `VarRef`, or
`UnaryExpr` in statement position matches no `isinstance` branch and is
silently ignored. -/
def genStmt : Node → IRState → Option IRState
  | .block stmts, st => genStmtList stmts st
  | .varDecl varType name init, st => do
    let st ←
      match init with
      | some e => do
        let (tmp, st) ← genExpr e st
        pure (emit { op := "assign", dest := some name, src1 := .str tmp } st)
      | Option.none => pure st
    pure { st with symbolTable := dictSet st.symbolTable name varType }
  | .assignment target value, st => do
    let (tmp, st) ← genExpr value st
    pure (emit { op := "assign", dest := some target, src1 := .str tmp } st)
  | .ifStmt cond thenB elseB, st => do
    let (condTemp, st) ← genExpr cond st
    let (elseLabel, st) := newLabel st
    let (endLabel, st) := newLabel st
    let st := emit { op := "cjump", dest := some condTemp, label := some elseLabel } st
    let st ← genStmt thenB st
    let st := emit { op := "jump", label := some endLabel } st
    let st := emit { op := "label", label := some elseLabel } st
    let st ←
      match elseB with
      | some e => genStmt e st
      | Option.none => pure st
    pure (emit { op := "label", label := some endLabel } st)
  | .whileStmt cond body, st => do
    let (startLabel, st) := newLabel st
    let (endLabel, st) := newLabel st
    let st := emit { op := "label", label := some startLabel } st
    let (condTemp, st) ← genExpr cond st
    let st := emit { op := "cjump", dest := some condTemp, label := some endLabel } st
    let st ← genStmt body st
    let st := emit { op := "jump", label := some startLabel } st
    pure (emit { op := "label", label := some endLabel } st)
  | .forStmt init cond update body, st => do
    let st ←
      match init with
      | some s => genStmt s st
      | Option.none => pure st
    let (startLabel, st) := newLabel st
    let (endLabel, st) := newLabel st
    let st := emit { op := "label", label := some startLabel } st
    let st ←
      match cond with
      | some c => do
        let (condTemp, st) ← genExpr c st
        pure (emit { op := "cjump", dest := some condTemp, label := some endLabel } st)
      | Option.none => pure st
    let st ← genStmt body st
    let st ←
      match update with
      | some u => do
        let (_, st) ← genExpr u st
        pure st
      | Option.none => pure st
    let st := emit { op := "jump", label := some startLabel } st
    pure (emit { op := "label", label := some endLabel } st)
  | .returnStmt e, st =>
    match e with
    | some e => do
      let (tmp, st) ← genExpr e st
      pure (emit { op := "return", dest := some tmp } st)
    | Option.none => pure (emit { op := "return" } st)
  | .funcCall name args, st => do
    let (argTemps, st) ← genArgs args st
    let (tmp, st) := newTemp st
    let st := emit { op := "call", dest := some tmp, src1 := .list argTemps,
                     src2 := some name } st
    pure st
  | .expr op l r, st => do
    let (_, st) ← genExpr (.expr op l r) st
    pure st
  | .literal _ _, st => pure st
  | .varRef _, st => pure st
  | .unaryExpr _ _, st => pure st
termination_by structural n _ => n

def genStmtList : List Node → IRState → Option IRState
  | [], st => pure st
  | s :: rest, st => do
    let st ← genStmt s st
    genStmtList rest st
termination_by structural ns _ => ns

/-- `IRGenerator.generate_expression`; returns the operand string.  A
statement node in expression position raises `ValueError` (`none`).
A binary `Expr` with `op = None` is formatted as the string `"None"`
inside `src2` (Python f-string of `None`).  The `FuncCall` branch
inlines `generate_func_call` (see `genFuncCall` below). -/
def genExpr : Node → IRState → Option (String × IRState)
  | .literal v _, st =>
    let (tmp, st) := newTemp st
    some (tmp, emit { op := "assign", dest := some tmp, src1 := .str v.pyStr } st)
  | .varRef name, st => some (name, st)
  | .unaryExpr op e, st => do
    let (srcTemp, st) ← genExpr e st
    let (tmp, st) := newTemp st
    pure (tmp, emit { op := "unop", dest := some tmp, src1 := .str op,
                      src2 := some srcTemp } st)
  | .expr op l r, st => do
    let (leftTemp, st) ← genExpr l st
    let (rightTemp, st) ← genExpr r st
    let (tmp, st) := newTemp st
    pure (tmp, emit { op := "binop", dest := some tmp, src1 := .str leftTemp,
                      src2 := some ((op.getD "None") ++ " " ++ rightTemp) } st)
  | .assignment target value, st => do
    let (valueTemp, st) ← genExpr value st
    pure (target, emit { op := "assign", dest := some target,
                         src1 := .str valueTemp } st)
  | .funcCall name args, st => do
    let (argTemps, st) ← genArgs args st
    let (tmp, st) := newTemp st
    pure (tmp, emit { op := "call", dest := some tmp, src1 := .list argTemps,
                      src2 := some name } st)
  | _, _ => Option.none
termination_by structural n _ => n

def genArgs : List Node → IRState → Option (List String × IRState)
  | [], st => pure ([], st)
  | a :: rest, st => do
    let (t, st) ← genExpr a st
    let st := emit { op := "param", dest := some t } st
    let (ts, st) ← genArgs rest st
    pure (t :: ts, st)
termination_by structural ns _ => ns

end

/-- `IRGenerator.generate_func_call`: a `param` per argument, then the
`call` whose `src1` is the ordered argument-operand list.  Its body is
inlined at the two call sites inside the mutual block above (the
`FuncCall` branches of `genStmt` and `genExpr`) so that the block is
structurally recursive. -/
def genFuncCall (name : String) (args : List Node) (st : IRState) :
    Option (String × IRState) := do
  let (argTemps, st) ← genArgs args st
  let (tmp, st) := newTemp st
  pure (tmp, emit { op := "call", dest := some tmp, src1 := .list argTemps,
                    src2 := some name } st)

/-- `IRGenerator.generate_function`: function label, record parameters,
body, implicit `return` for `void`. -/
def generateFunction (f : Function) (st : IRState) : Option IRState := do
  let st := emit { op := "label", label := some f.name } st
  let st := f.params.foldl
    (fun st p => { st with symbolTable := dictSet st.symbolTable p.2 p.1 }) st
  let st ← genStmt f.body st
  pure (if f.retType = "void" then emit { op := "return" } st else st)

/-- `IRGenerator.generate`: reset `instructions` and both counters (the
`symbol_table` field is not reset — it is also never read), then lower
each function; returns `self.instructions`. -/
def generate (st : IRState) (p : Program) : Option (List TACInstruction) :=
  let st := { st with instructions := [], tempCount := 0, labelCount := 0 }
  (p.functions.foldlM (fun st f => generateFunction f st) st).map IRState.instructions

/-! ## Pretty printing of AST nodes (`__str__` methods of `ast_nodes.py`),
needed for the interpolated text of one semantic-analyzer error. -/

mutual

def Node.pyStr : Node → String
  | .block stmts => "\x7b\n" ++
      String.intercalate "\n" (Node.pyStrList stmts |>.map (fun s => "  " ++ s)) ++ "\n\x7d"
  | .varDecl vt name init =>
    vt ++ " " ++ name ++ (match init with
      | some e => " = " ++ e.pyStr
      | Option.none => "") ++ ";"
  | .assignment target value => target ++ " = " ++ value.pyStr ++ ";"
  | .ifStmt cond thenB elseB =>
    "if (" ++ cond.pyStr ++ ") " ++ thenB.pyStr ++ (match elseB with
      | some e => " else " ++ e.pyStr
      | Option.none => "")
  | .whileStmt cond body => "while (" ++ cond.pyStr ++ ") " ++ body.pyStr
  | .forStmt init cond update body =>
    "for (" ++ (match init with | some s => s.pyStr | Option.none => ";") ++ " " ++
      (match cond with | some c => c.pyStr | Option.none => "") ++ "; " ++
      (match update with | some u => u.pyStr | Option.none => "") ++ ") " ++ body.pyStr
  | .returnStmt e =>
    "return" ++ (match e with | some e => " " ++ e.pyStr | Option.none => "") ++ ";"
  | .expr op l r => "(" ++ l.pyStr ++ " " ++ op.getD "None" ++ " " ++ r.pyStr ++ ")"
  | .unaryExpr op e => "(" ++ op ++ e.pyStr ++ ")"
  | .literal v _ => v.pyStr
  | .varRef name => name
  | .funcCall name args => name ++ "(" ++ String.intercalate ", " (Node.pyStrList args) ++ ")"

def Node.pyStrList : List Node → List String
  | [] => []
  | n :: rest => n.pyStr :: Node.pyStrList rest

end

/-! ## Semantic analyzer (`semantic.py`) -/

/-- `semantic.Symbol`. -/
structure Symbol where
  name : String
  typ : String
  kind : String := "var"
deriving Repr, DecidableEq

/-- The per-function symbol table is a Python `dict` keyed by variable
name; only lookup, membership, and assignment are used. -/
def SymTab := List (String × Symbol)

def symLookup (tab : SymTab) (k : String) : Option Symbol :=
  match tab with
  | [] => Option.none
  | (k', v) :: rest => if k' = k then some v else symLookup rest k

def symSet (tab : SymTab) (k : String) (v : Symbol) : SymTab :=
  match tab with
  | [] => [(k, v)]
  | (k', v') :: rest => if k' = k then (k, v) :: rest else (k', v') :: symSet rest k v

/-- The analyzer's `functions` dictionary; only membership and the
`ret_type` field of the stored `Function` are ever used. -/
def FuncMap := List (String × Function)

def funcLookup (fns : FuncMap) (k : String) : Option Function :=
  match fns with
  | [] => Option.none
  | (k', v) :: rest => if k' = k then some v else funcLookup rest k

/-- `SemanticAnalyzer.type_compatible`. -/
def typeCompatible (dest src : String) : Bool :=
  if dest = src then true
  else if dest = "float" ∧ src = "int" then true
  else if dest = "int" ∧ src = "char" then true
  else if dest = "char" ∧ src = "int" then true
  else false

/-- `isinstance(node, Block)`. -/
def isBlock : Node → Bool
  | .block _ => true
  | _ => false

/-- `SemanticAnalyzer.eval_expr_type`; errors are `SemanticError`s. -/
def evalExprType (fns : FuncMap) : Node → SymTab → Except String String
  | .literal _ typ, _ => pure typ
  | .varRef name, tab =>
    match symLookup tab name with
    | some s => pure s.typ
    | Option.none => .error ("Use of undeclared variable " ++ name)
  | .assignment target value, tab =>
    match symLookup tab target with
    | Option.none => .error ("Assignment to undeclared variable " ++ target)
    | some sym => do
      let rtype ← evalExprType fns value tab
      if typeCompatible sym.typ rtype then pure sym.typ
      else .error ("Type mismatch in assignment to " ++ target ++ ": " ++
        sym.typ ++ " <- " ++ rtype)
  | .unaryExpr op e, tab => do
    let et ← evalExprType fns e tab
    if op = "!" then
      if et ≠ "bool" then .error ("\x27!\x27 operator needs bool, got " ++ et)
      else pure "bool"
    else pure et
  | .expr op l r, tab => do
    let lt ← evalExprType fns l tab
    let rt ← evalExprType fns r tab
    if op = some "+" ∨ op = some "-" ∨ op = some "*" ∨ op = some "/" ∨ op = some "%" then
      if lt = "float" ∨ rt = "float" then pure "float" else pure "int"
    else if op = some "<" ∨ op = some ">" ∨ op = some "<=" ∨ op = some ">=" ∨
        op = some "==" ∨ op = some "!=" then
      pure "bool"
    else if op = some "&&" ∨ op = some "||" then pure "bool"
    else pure "int"
  | .funcCall name args, tab =>
    if name = "print" then pure "void"
    else if name = "read" then
      match args with
      | [] => .error "read expects a variable"
      | a :: _ =>
        match a with
        | .varRef vn =>
          match symLookup tab vn with
          | some _ => pure "void"
          | Option.none => .error ("read on undeclared variable " ++ vn)
        | _ => .error "read expects a variable"
    else
      match funcLookup fns name with
      | some f => pure f.retType
      | Option.none => .error ("Call to undefined function " ++ name)
  | n, _ => .error ("Unable to determine expression type for " ++ n.pyStr)

mutual

/-- `SemanticAnalyzer.walk_stmt`.  The symbol table is a mutable `dict`
shared with the caller, so the result carries the updated table; bodies
that are `Block`s are walked on a `dict(symtab)` copy whose updates are
discarded (errors still propagate), while non-block bodies share the
caller's table.  A `ForStmt`'s `update` expression is never visited.
The `Nat` argument is the recursion-depth budget (Python's recursion
limit): each nested walk call consumes one unit, exhaustion is
`RecursionError`, and any budget at least the statement-nesting depth
gives the same result. -/
def walkStmt (fns : FuncMap) : Nat → Node → SymTab → String → Except String SymTab
  | 0, _, _, _ => .error "RecursionError"
  | fuel + 1, n, tab, rt =>
    match n with
    | .varDecl vt name init =>
      if (symLookup tab name).isSome then .error ("Variable " ++ name ++ " already declared")
      else do
        match init with
        | some e => do
          let it ← evalExprType fns e tab
          if typeCompatible vt it then pure ()
          else .error ("Type mismatch initializing " ++ name ++ ": " ++ vt ++ " <- " ++ it)
        | Option.none => pure ()
        pure (symSet tab name { name := name, typ := vt })
    | .assignment target value =>
      match symLookup tab target with
      | Option.none => .error ("Assignment to undeclared variable " ++ target)
      | some sym => do
        let vtype ← evalExprType fns value tab
        if typeCompatible sym.typ vtype then pure tab
        else .error ("Type mismatch in assignment to " ++ target ++ ": " ++
          sym.typ ++ " <- " ++ vtype)
    | .ifStmt cond thenB elseB => do
      let condt ← evalExprType fns cond tab
      if condt ≠ "bool" then .error ("Condition in if must be bool, got " ++ condt)
      else do
        let tab ←
          if isBlock thenB then do
            let _ ← walkStmt fns fuel thenB tab rt
            pure tab
          else walkStmt fns fuel thenB tab rt
        match elseB with
        | some e =>
          if isBlock e then do
            let _ ← walkStmt fns fuel e tab rt
            pure tab
          else walkStmt fns fuel e tab rt
        | Option.none => pure tab
    | .whileStmt cond body => do
      let condt ← evalExprType fns cond tab
      if condt ≠ "bool" then .error ("Condition in while must be bool, got " ++ condt)
      else
        if isBlock body then do
          let _ ← walkStmt fns fuel body tab rt
          pure tab
        else walkStmt fns fuel body tab rt
    | .forStmt init cond _update body => do
      let tab ←
        match init with
        | some st => walkStmt fns fuel st tab rt
        | Option.none => pure tab
      match cond with
      | some c => do
        let condt ← evalExprType fns c tab
        if condt ≠ "bool" then .error ("Condition in for must be bool, got " ++ condt)
        else
          if isBlock body then do
            let _ ← walkStmt fns fuel body tab rt
            pure tab
          else walkStmt fns fuel body tab rt
      | Option.none =>
        if isBlock body then do
          let _ ← walkStmt fns fuel body tab rt
          pure tab
        else walkStmt fns fuel body tab rt
    | .returnStmt e =>
      match e with
      | Option.none =>
        if rt ≠ "void" then .error "Missing return value for non-void function"
        else pure tab
      | some e => do
        let et ← evalExprType fns e tab
        if typeCompatible rt et then pure tab
        else .error ("Return type mismatch: expected " ++ rt ++ ", got " ++ et)
    | .funcCall name _ =>
      if name ≠ "print" ∧ name ≠ "read" ∧ (funcLookup fns name).isNone then
        .error ("Call to undefined function " ++ name)
      else pure tab
    | .block stmts => do
      let _ ← walkBlock fns fuel stmts tab rt
      pure tab
    | .expr op l r => do
      let _ ← evalExprType fns (.expr op l r) tab
      pure tab
    | .unaryExpr op e => do
      let _ ← evalExprType fns (.unaryExpr op e) tab
      pure tab
    | .literal v t => do
      let _ ← evalExprType fns (.literal v t) tab
      pure tab
    | .varRef name => do
      let _ ← evalExprType fns (.varRef name) tab
      pure tab

/-- `SemanticAnalyzer.walk_block`: walk each statement on the shared
table. -/
def walkBlock (fns : FuncMap) : Nat → List Node → SymTab → String → Except String SymTab
  | 0, _, _, _ => .error "RecursionError"
  | _ + 1, [], tab, _ => pure tab
  | fuel + 1, st :: rest, tab, rt => do
    let tab ← walkStmt fns fuel st tab rt
    walkBlock fns fuel rest tab rt

end

/-- `SemanticAnalyzer.analyze_function`: fresh table seeded with the
parameters, then `walk_block` on the body.  A non-`Block` body (never
produced by the parser) would raise `AttributeError` on
`block.statements`. -/
def analyzeFunction (fns : FuncMap) (fuel : Nat) (f : Function) : Except String SymTab :=
  let tab := f.params.foldl
    (fun tab p => symSet tab p.2 { name := p.2, typ := p.1 }) ([] : SymTab)
  match f.body with
  | .block stmts => walkBlock fns fuel stmts tab f.retType
  | _ => .error "AttributeError"

/-! ## Parser expression grammar (`parser.Parser.parse_expression` /
`parse_primary`)

The token cursor is the `(tokens, pos)` pair; `self.tokens[self.pos]`
past the end raises `IndexError`.  The `while True` precedence-climbing
loop and the recursive descent are modelled with a fuel parameter (the
source terminates because every iteration consumes a token; any fuel at
least the token count is enough). -/

/-- `lexer.Token`. -/
structure Token where
  type : String
  value : String
  lineno : Nat
  col : Nat
deriving Repr, DecidableEq

structure PState where
  tokens : List Token
  pos : Nat
deriving Repr, DecidableEq

/-- `Parser.peek`. -/
def peekTok (st : PState) : Except String Token :=
  match st.tokens.get? st.pos with
  | some t => pure t
  | Option.none => .error "IndexError"

/-- `Parser.next`. -/
def nextTok (st : PState) : Except String (Token × PState) := do
  let t ← peekTok st
  pure (t, { st with pos := st.pos + 1 })

/-- `Parser.expect`. -/
def expectTok (typ : String) (val : Option String) (st : PState) :
    Except String (Token × PState) := do
  let t ← peekTok st
  if t.type ≠ typ then
    .error ("Expected " ++ typ ++ " at " ++ toString t.lineno ++ ":" ++
      toString t.col ++ ", found " ++ t.type ++ " (\x27" ++ t.value ++ "\x27)")
  else
    match val with
    | some v =>
      if t.value ≠ v then
        .error ("Expected " ++ v ++ " at " ++ toString t.lineno ++ ":" ++
          toString t.col ++ ", found \x27" ++ t.value ++ "\x27")
      else nextTok st
    | Option.none => nextTok st

/-- Python `int(s)` as used on an `INT_LIT` lexeme: an optional sign
followed by decimal digits (other accepted Python forms such as inner
underscores or surrounding whitespace are not exercised here). -/
def pyInt (s : String) : Option Int :=
  match s.toList with
  | '-' :: rest =>
    if rest ≠ [] ∧ rest.all Char.isDigit then some (-(Int.ofNat (digitsToNat rest)))
    else Option.none
  | '+' :: rest =>
    if rest ≠ [] ∧ rest.all Char.isDigit then some (Int.ofNat (digitsToNat rest))
    else Option.none
  | ds =>
    if ds ≠ [] ∧ ds.all Char.isDigit then some (Int.ofNat (digitsToNat ds))
    else Option.none

/-- Python `s[1:-1]`. -/
def pyStripEnds (s : String) : String :=
  String.mk ((s.toList.drop 1).dropLast)

mutual

/-- `Parser.parse_expression`: unary-prefix handling, then the
precedence-climbing loop (`parseExprLoop`). -/
def parseExpression : Nat → Nat → PState → Except String (Node × PState)
  | 0, _, _ => .error "fuel"
  | fuel + 1, minPrec, st => do
    let tok ← peekTok st
    let (left, st) ←
      if tok.type = "ARITH" ∧ (tok.value = "+" ∨ tok.value = "-") then do
        let (opTok, st) ← nextTok st
        let (e, st) ← parseExpression fuel 6 st
        pure (Node.unaryExpr opTok.value e, st)
      else if tok.type = "LOGIC" ∧ tok.value = "!" then do
        let (opTok, st) ← nextTok st
        let (e, st) ← parseExpression fuel 6 st
        pure (Node.unaryExpr opTok.value e, st)
      else parsePrimary fuel st
    parseExprLoop fuel minPrec left st

/-- The `while True` loop of `parse_expression`.  `||` is assigned
precedence 2 and `&&` precedence 1 (source lines 204-210), and `=` only
binds when the accumulated left operand is a `VarRef`. -/
def parseExprLoop : Nat → Nat → Node → PState → Except String (Node × PState)
  | 0, _, _, _ => .error "fuel"
  | fuel + 1, minPrec, left, st => do
    let tok ← peekTok st
    let step? :
        Option (Nat × Bool × String) :=  -- (prec, isLeftAssoc, op)
      if tok.type = "ARITH" then
        some (if tok.value = "*" ∨ tok.value = "/" ∨ tok.value = "%" then 5 else 4,
          true, tok.value)
      else if tok.type = "RELOP" then some (3, true, tok.value)
      else if tok.type = "LOGIC" then
        if tok.value = "&&" ∨ tok.value = "||" then
          some (if tok.value = "||" then 2 else 1, true, tok.value)
        else Option.none
      else if tok.type = "ASSIGN" ∧ (match left with | .varRef _ => true | _ => false) = true then
        some (0, false, tok.value)
      else Option.none
    match step? with
    | Option.none => pure (left, st)
    | some (prec, isLeft, op) =>
      if prec < minPrec then pure (left, st)
      else do
        let (_, st) ← nextTok st
        let (rhs, st) ← parseExpression fuel (if isLeft then prec + 1 else prec) st
        if op = "=" then
          match left with
          | .varRef nm => parseExprLoop fuel minPrec (Node.assignment nm rhs) st
          | _ => .error "AttributeError"
        else
          parseExprLoop fuel minPrec (Node.expr (some op) left rhs) st

/-- `Parser.parse_primary`. -/
def parsePrimary : Nat → PState → Except String (Node × PState)
  | 0, _ => .error "fuel"
  | fuel + 1, st => do
    let tok ← peekTok st
    if tok.type = "INT_LIT" then do
      let (t, st) ← nextTok st
      match pyInt t.value with
      | some n => pure (Node.literal (.int n) "int", st)
      | Option.none => .error "ValueError"
    else if tok.type = "FLOAT_LIT" then do
      let (t, st) ← nextTok st
      pure (Node.literal (.float t.value) "float", st)
    else if tok.type = "CHAR_LIT" then do
      let (t, st) ← nextTok st
      pure (Node.literal (.str (pyStripEnds t.value)) "char", st)
    else if tok.type = "STRING_LIT" then do
      let (t, st) ← nextTok st
      pure (Node.literal (.str (pyStripEnds t.value)) "string", st)
    else if tok.type = "BOOL_LIT" then do
      let (t, st) ← nextTok st
      pure (Node.literal (.bool (t.value = "true")) "bool", st)
    else if tok.type = "ID" then do
      let (idTok, st) ← nextTok st
      let t2 ← peekTok st
      if t2.type = "SYM" ∧ t2.value = "(" then do
        let (_, st) ← nextTok st
        let t3 ← peekTok st
        let (args, st) ←
          if t3.type = "SYM" ∧ t3.value = ")" then pure (([] : List Node), st)
          else parseCallArgs fuel st
        let (_, st) ← expectTok "SYM" (some ")") st
        pure (Node.funcCall idTok.value args, st)
      else
        pure (Node.varRef idTok.value, st)
    else if tok.type = "SYM" ∧ tok.value = "(" then do
      let (_, st) ← nextTok st
      let (e, st) ← parseExpression fuel 0 st
      let (_, st) ← expectTok "SYM" (some ")") st
      pure (e, st)
    else
      .error ("Unexpected token " ++ tok.type ++ " (\x27" ++ tok.value ++
        "\x27) at " ++ toString tok.lineno ++ ":" ++ toString tok.col)

/-- The argument loop inside `parse_primary`'s call branch. -/
def parseCallArgs : Nat → PState → Except String (List Node × PState)
  | 0, _ => .error "fuel"
  | fuel + 1, st => do
    let (e, st) ← parseExpression fuel 0 st
    let t ← peekTok st
    if t.type = "SYM" ∧ t.value = "," then do
      let (_, st) ← nextTok st
      let (rest, st) ← parseCallArgs fuel st
      pure (e :: rest, st)
    else pure ([e], st)

end

/-! ## Lexer (`lexer.py`)

`tokenize` drives `re.finditer` over the master alternation of
`TokenSpec` compiled with `re.S`.  At each position the first (not the
longest) alternative that matches wins; each matcher below implements
its pattern's own (deterministic) matching, and `masterMatch` tries them
in `TokenSpec` order.  Word boundaries `\b` compare the previous
character of the *input* with the first/last pattern character. -/

def quoteC : Char := Char.ofNat 39

def bslashC : Char := Char.ofNat 92

/-- Regex `\w`: `[A-Za-z0-9_]`. -/
def isWordChar (c : Char) : Bool := c.isAlphanum || c = '_'

/-- `[ \t\r\n]+`. -/
def matchWs (rest : List Char) : Option Nat :=
  let n := (rest.takeWhile (fun c => c = ' ' ∨ c = '\t' ∨ c = '\r' ∨ c = '\n')).length
  if n = 0 then Option.none else some n

/-- `//[^\n]*`. -/
def matchLineComment : List Char → Option Nat
  | '/' :: '/' :: rest => some (2 + (rest.takeWhile (· ≠ '\n')).length)
  | _ => Option.none

/-- Offset of the first `*/` in the list, if any. -/
def findCommentClose : List Char → Option Nat
  | '*' :: '/' :: _ => some 0
  | _ :: rest => (findCommentClose rest).map (· + 1)
  | [] => Option.none

/-- `/\*.*?\*/` under `re.S`: non-greedy up to the first `*/`. -/
def matchBlockComment : List Char → Option Nat
  | '/' :: '*' :: rest => (findCommentClose rest).map (fun k => 2 + k + 2)
  | _ => Option.none

/-- `\bKW\b` for a keyword of word characters. -/
def matchKeyword (kw : String) (prev : Option Char) (rest : List Char) : Option Nat :=
  let ks := kw.toList
  if rest.take ks.length = ks ∧
      (match prev with | some c => !isWordChar c | Option.none => true) = true ∧
      (match rest.drop ks.length with | c :: _ => !isWordChar c | [] => true) = true then
    some ks.length
  else Option.none

/-- `\btrue\b|\bfalse\b`. -/
def matchBoolLit (prev : Option Char) (rest : List Char) : Option Nat :=
  (matchKeyword "true" prev rest).orElse (fun _ => matchKeyword "false" prev rest)

/-- `[0-9]+\.[0-9]+`. -/
def matchFloatLit (rest : List Char) : Option Nat :=
  let d1 := (rest.takeWhile Char.isDigit).length
  if d1 = 0 then Option.none
  else
    match rest.drop d1 with
    | '.' :: r2 =>
      let d2 := (r2.takeWhile Char.isDigit).length
      if d2 = 0 then Option.none else some (d1 + 1 + d2)
    | _ => Option.none

/-- `[0-9]+`. -/
def matchIntLit (rest : List Char) : Option Nat :=
  let d := (rest.takeWhile Char.isDigit).length
  if d = 0 then Option.none else some d

/-- `'([^'\\]|\\.)'` (with `.` matching newline under `re.S`). -/
def matchCharLit (rest : List Char) : Option Nat :=
  match rest with
  | q1 :: c2 :: tail =>
    if q1 = quoteC then
      if c2 = bslashC then
        match tail with
        | _ :: q2 :: _ => if q2 = quoteC then some 4 else Option.none
        | _ => Option.none
      else if c2 ≠ quoteC then
        match tail with
        | q2 :: _ => if q2 = quoteC then some 3 else Option.none
        | _ => Option.none
      else Option.none
    else Option.none
  | _ => Option.none

/-- Body of `"([^"\\]|\\.)*"` after the opening quote, up to and
including the closing quote.  The element class cannot consume an
unescaped quote, so the greedy scan is deterministic. -/
def matchStringBody : List Char → Option Nat
  | c :: rest =>
    if c = '"' then some 1
    else if c = bslashC then
      match rest with
      | _ :: rest2 => (matchStringBody rest2).map (· + 2)
      | [] => Option.none
    else (matchStringBody rest).map (· + 1)
  | [] => Option.none

/-- `\"([^"\\]|\\.)*\"`. -/
def matchStringLit : List Char → Option Nat
  | '"' :: rest => (matchStringBody rest).map (· + 1)
  | _ => Option.none

/-- `[A-Za-z_][A-Za-z0-9_]*`. -/
def matchId : List Char → Option Nat
  | c :: rest =>
    if c.isAlpha ∨ c = '_' then some (1 + (rest.takeWhile isWordChar).length)
    else Option.none
  | [] => Option.none

/-- `\+|\-|\*|/|%`. -/
def matchArith : List Char → Option Nat
  | c :: _ =>
    if c = '+' ∨ c = '-' ∨ c = '*' ∨ c = '/' ∨ c = '%' then some 1 else Option.none
  | [] => Option.none

/-- `<=|>=|==|!=|<|>` (alternatives tried in order). -/
def matchRelop : List Char → Option Nat
  | '<' :: '=' :: _ => some 2
  | '>' :: '=' :: _ => some 2
  | '=' :: '=' :: _ => some 2
  | '!' :: '=' :: _ => some 2
  | '<' :: _ => some 1
  | '>' :: _ => some 1
  | _ => Option.none

/-- `&&|\|\||!`. -/
def matchLogic : List Char → Option Nat
  | '&' :: '&' :: _ => some 2
  | '|' :: '|' :: _ => some 2
  | '!' :: _ => some 1
  | _ => Option.none

/-- `=`. -/
def matchAssign : List Char → Option Nat
  | '=' :: _ => some 1
  | _ => Option.none

/-- `;|,|\(|\)|\{|\}|\[|\]`. -/
def matchSym : List Char → Option Nat
  | c :: _ =>
    if c = ';' ∨ c = ',' ∨ c = '(' ∨ c = ')' ∨ c = Char.ofNat 123 ∨
        c = Char.ofNat 125 ∨ c = '[' ∨ c = ']' then some 1
    else Option.none
  | [] => Option.none

/-- The master alternation, in `TokenSpec` order: the first matching
alternative wins; `none` as token type marks a skipped lexeme. -/
def masterMatch (prev : Option Char) (rest : List Char) : Option (Nat × Option String) :=
  let cands : List (Option Nat × Option String) :=
    [ (matchWs rest, Option.none),
      (matchLineComment rest, Option.none),
      (matchBlockComment rest, Option.none),
      (matchKeyword "int" prev rest, some "INT_KW"),
      (matchKeyword "float" prev rest, some "FLOAT_KW"),
      (matchKeyword "char" prev rest, some "CHAR_KW"),
      (matchKeyword "bool" prev rest, some "BOOL_KW"),
      (matchKeyword "if" prev rest, some "IF"),
      (matchKeyword "else" prev rest, some "ELSE"),
      (matchKeyword "for" prev rest, some "FOR"),
      (matchKeyword "while" prev rest, some "WHILE"),
      (matchKeyword "return" prev rest, some "RETURN"),
      (matchKeyword "void" prev rest, some "VOID"),
      (matchKeyword "print" prev rest, some "PRINT"),
      (matchKeyword "read" prev rest, some "READ"),
      (matchBoolLit prev rest, some "BOOL_LIT"),
      (matchFloatLit rest, some "FLOAT_LIT"),
      (matchIntLit rest, some "INT_LIT"),
      (matchCharLit rest, some "CHAR_LIT"),
      (matchStringLit rest, some "STRING_LIT"),
      (matchId rest, some "ID"),
      (matchArith rest, some "ARITH"),
      (matchRelop rest, some "RELOP"),
      (matchLogic rest, some "LOGIC"),
      (matchAssign rest, some "ASSIGN"),
      (matchSym rest, some "SYM") ]
  (cands.find? (fun p => p.1.isSome)).map (fun p => (p.1.getD 0, p.2))

/-- The `finditer` loop of `tokenize`: on a match, emit a token for a
non-skipped kind with `col = m.start() - line_start + 1`, then advance
`line_no` by the newlines in the lexeme and — when it contains one — set
`line_start` to `m.end()` (the source's position bookkeeping, lines
81-84); on no match, skip one character (with no position bookkeeping,
as `finditer` simply resumes at the next match).  Every match consumes
at least one character, so fuel `≥` the input length is enough. -/
def tokenizeGo : Nat → List Char → Nat → Option Char → Nat → Nat → List Token →
    List Token × Nat
  | 0, _, _, _, lineNo, _, acc => (acc, lineNo)
  | _ + 1, [], _, _, lineNo, _, acc => (acc, lineNo)
  | fuel + 1, c :: rest, pos, prev, lineNo, lineStart, acc =>
    match masterMatch prev (c :: rest) with
    | Option.none => tokenizeGo fuel rest (pos + 1) (some c) lineNo lineStart acc
    | some (len, kind) =>
      let value := (c :: rest).take len
      let acc :=
        match kind with
        | some k => acc ++ [⟨k, String.mk value, lineNo, pos - lineStart + 1⟩]
        | Option.none => acc
      let lineNo := lineNo + (value.filter (· = '\n')).length
      let lineStart := if value.contains '\n' then pos + len else lineStart
      tokenizeGo fuel ((c :: rest).drop len) (pos + len) value.getLast? lineNo lineStart acc

/-- `lexer.tokenize`: scan the input and append the `EOF` token. -/
def tokenize (code : String) : List Token :=
  let cs := code.toList
  let (toks, lineNo) := tokenizeGo (cs.length + 1) cs 0 Option.none 1 0 []
  toks ++ [⟨"EOF", "", lineNo, 1⟩]

/-! ## Code generator (`codegen.CodeGenerator`) -/

/-- Python `f"{x}"` for an optional string (`None` prints as `"None"`). -/
def optPyStr (o : Option String) : String := o.getD "None"

/-- Python `f"{x}"` for a `src1` value (`repr` for a list). -/
def Src1.pyStr : Src1 → String
  | .none => "None"
  | .str s => s
  | .list l =>
    "[" ++ String.intercalate ", "
      (l.map (fun s => String.singleton quoteC ++ s ++ String.singleton quoteC)) ++ "]"

/-- `TACInstruction.__str__`.  For `call`, `', '.join(src1)` joins list
elements, or the characters when `src1` is a plain string. -/
def TACInstruction.pyStr (i : TACInstruction) : String :=
  if i.op = "label" then optPyStr i.label ++ ":"
  else if i.op = "assign" then optPyStr i.dest ++ " = " ++ i.src1.pyStr
  else if i.op = "binop" then
    optPyStr i.dest ++ " = " ++ i.src1.pyStr ++ " " ++ optPyStr i.src2
  else if i.op = "unop" then
    optPyStr i.dest ++ " = " ++ i.src1.pyStr ++ " " ++ optPyStr i.src2
  else if i.op = "jump" then "goto " ++ optPyStr i.label
  else if i.op = "cjump" then "if " ++ optPyStr i.dest ++ " goto " ++ optPyStr i.label
  else if i.op = "call" then
    let argsStr :=
      match i.src1 with
      | .list l => if l.isEmpty then "" else String.intercalate ", " l
      | .str s =>
        if s = "" then "" else String.intercalate ", " (s.toList.map String.singleton)
      | .none => ""
    optPyStr i.dest ++ " = call " ++ optPyStr i.src2 ++ "(" ++ argsStr ++ ")"
  else if i.op = "return" then
    if optStrTruthy i.dest then "return " ++ optPyStr i.dest else "return"
  else if i.op = "param" then "param " ++ optPyStr i.dest
  else i.op ++ " " ++ optPyStr i.dest ++ " " ++ i.src1.pyStr ++ " " ++ optPyStr i.src2

/-- `CodeGenerator.generate_instruction`: the assembly lines appended for
one instruction.  A `binop` with a missing (`AttributeError`) or
space-free (`IndexError`) `src2` crashes; an unmatched binary operator
or unary operator other than `-`/`!` simply emits no opcode line.  A
`call`'s `instr.src1 or []` iterates a string `src1` character by
character. -/
def generateInstruction (i : TACInstruction) : Option (List String) :=
  if i.op = "assign" then
    some ["LOAD " ++ i.src1.pyStr, "STORE " ++ optPyStr i.dest]
  else if i.op = "binop" then
    match i.src2 with
    | Option.none => Option.none
    | some s2 =>
      match pySplit1 s2 with
      | [op, right] =>
        let opLine : List String :=
          if op = "+" then ["ADD"] else if op = "-" then ["SUB"]
          else if op = "*" then ["MUL"] else if op = "/" then ["DIV"]
          else if op = "%" then ["MOD"] else if op = "&&" then ["AND"]
          else if op = "||" then ["OR"] else if op = "<" then ["LT"]
          else if op = ">" then ["GT"] else if op = "<=" then ["LE"]
          else if op = ">=" then ["GE"] else if op = "==" then ["EQ"]
          else if op = "!=" then ["NE"] else []
        some (["LOAD " ++ i.src1.pyStr, "LOAD " ++ right] ++ opLine ++
          ["STORE " ++ optPyStr i.dest])
      | _ => Option.none
  else if i.op = "unop" then
    some (["LOAD " ++ optPyStr i.src2] ++
      (if i.src1 = .str "-" then ["NEG"]
       else if i.src1 = .str "!" then ["NOT"] else []) ++
      ["STORE " ++ optPyStr i.dest])
  else if i.op = "jump" then some ["JMP " ++ optPyStr i.label]
  else if i.op = "cjump" then
    some ["LOAD " ++ optPyStr i.dest, "JTRUE " ++ optPyStr i.label]
  else if i.op = "label" then some [optPyStr i.label ++ ":"]
  else if i.op = "call" then
    let args : List String :=
      match i.src1 with
      | .none => []
      | .str s => if s = "" then [] else s.toList.map String.singleton
      | .list l => l
    some (args.map (fun a => "PUSH " ++ a) ++ ["CALL " ++ optPyStr i.src2] ++
      (if optStrTruthy i.dest then ["STORE " ++ optPyStr i.dest] else []))
  else if i.op = "return" then
    some ((if optStrTruthy i.dest then ["LOAD " ++ optPyStr i.dest] else []) ++ ["RET"])
  else if i.op = "param" then some ["PUSH " ++ optPyStr i.dest]
  else some ["; " ++ i.pyStr]

/-- The mutable fields of a `CodeGenerator` (`temp_stack` is never
used). -/
structure CGState where
  assembly : List String
  tempStack : List String
deriving Repr, DecidableEq

/-- `CodeGenerator.generate`: reset `self.assembly`, lower each
instruction, join with newlines.  The incoming state is entirely
ignored: `assembly` is reset and `temp_stack` is never read. -/
def codegenGenerate (_st : CGState) (l : List TACInstruction) : Option String :=
  (l.mapM generateInstruction).map (fun xs => String.intercalate "\n" xs.flatten)

/-! ## Infrastructure for the determinism proof (claim about fresh runs)

`sEq` relates two generator states that agree on everything the emitted
code can depend on (the `symbol_table` field is write-only in
`ir_generator.py`); `ORel` lifts a relation to `Option` results so the
crash behaviour is related too. -/

/-- Agreement on the instruction buffer and both counters. -/
def sEq (s t : IRState) : Prop :=
  s.instructions = t.instructions ∧ s.tempCount = t.tempCount ∧
    s.labelCount = t.labelCount

/-- Agreement of `generate_expression`-style results: same operand
string and `sEq`-related states. -/
def pEq (a b : String × IRState) : Prop := a.1 = b.1 ∧ sEq a.2 b.2

/-- Agreement of `generate_func_call` argument-list results. -/
def aEq (a b : List String × IRState) : Prop := a.1 = b.1 ∧ sEq a.2 b.2

inductive ORel (R : α → β → Prop) : Option α → Option β → Prop
  | none : ORel R Option.none Option.none
  | some {a b} : R a b → ORel R (some a) (some b)

/-! ## Concrete programs and instruction sequences used by the claims -/

/-- The program `int main(){ int a = 2 + 3 * 4; return a; }` (scenario 1
of the specification), as the parser builds it. -/
def prog1 : Program :=
  ⟨[⟨"int", "main", [],
    .block
      [ .varDecl "int" "a"
          (some (.expr (some "+") (.literal (.int 2) "int")
            (.expr (some "*") (.literal (.int 3) "int") (.literal (.int 4) "int")))),
        .returnStmt (some (.varRef "a")) ]⟩]⟩

/-- The TAC the IR generator emits for `prog1`. -/
def tac1 : List TACInstruction :=
  [ { op := "label", label := some "main" },
    { op := "assign", dest := some "t1", src1 := .str "2" },
    { op := "assign", dest := some "t2", src1 := .str "3" },
    { op := "assign", dest := some "t3", src1 := .str "4" },
    { op := "binop", dest := some "t4", src1 := .str "t2", src2 := some "* t3" },
    { op := "binop", dest := some "t5", src1 := .str "t1", src2 := some "+ t4" },
    { op := "assign", dest := some "a", src1 := .str "t5" },
    { op := "return", dest := some "a" } ]

/-- The program `int main(){ int a = 0; int b = 4 / a; return b; }`: a
semantically valid MiniC program whose constant-folded division has a
zero right operand. -/
def prog2 : Program :=
  ⟨[⟨"int", "main", [],
    .block
      [ .varDecl "int" "a" (some (.literal (.int 0) "int")),
        .varDecl "int" "b"
          (some (.expr (some "/") (.literal (.int 4) "int") (.varRef "a"))),
        .returnStmt (some (.varRef "b")) ]⟩]⟩

/-- A well-formed `unop` whose operator is `+` and whose operand is a
digit string. -/
def unopPlus : TACInstruction :=
  { op := "unop", dest := some "t1", src1 := .str "+", src2 := some "5" }

/-- A shorthand for a well-formed `binop` instruction. -/
def binopI (d s1 opRight : String) : TACInstruction :=
  { op := "binop", dest := some d, src1 := .str s1, src2 := some opRight }

/-- The straight-line sequence `n = a + b; m = n + c; q = n + d;
p = m + e; r = m + g` on which CSE is not idempotent: the group of
`n`'s users is rewritten with stale group information, and a second run
finds the group `[n, m, m]` left behind by the first. -/
def ex6 : List TACInstruction :=
  [ binopI "n" "a" "+ b", binopI "m" "n" "+ c", binopI "q" "n" "+ d",
    binopI "p" "m" "+ e", binopI "r" "m" "+ g" ]

/-- `ex6` after one CSE pass. -/
def ex6once : List TACInstruction :=
  [ binopI "n" "a" "+ b", binopI "n" "n" "+ c", binopI "n" "n" "+ d",
    binopI "m" "n" "+ e", binopI "m" "n" "+ g" ]

/-- `ex6` after two CSE passes. -/
def ex6twice : List TACInstruction :=
  [ binopI "n" "a" "+ b", binopI "n" "n" "+ c", binopI "n" "n" "+ d",
    binopI "n" "n" "+ e", binopI "n" "n" "+ g" ]

/-- The lexer input `"int main(){\n    int x;\n}"` of the column claim. -/
def lexExample : String := "int main()\x7b\n    int x;\n\x7d"

/-- Tokens of `a || b && c` (three identifier primaries and a trailing
semicolon, as the statement parser would see). -/
def toksOrAnd (a b c : String) : List Token :=
  [⟨"ID", a, 1, 1⟩, ⟨"LOGIC", "||", 1, 3⟩, ⟨"ID", b, 1, 6⟩,
   ⟨"LOGIC", "&&", 1, 8⟩, ⟨"ID", c, 1, 11⟩, ⟨"SYM", ";", 1, 12⟩]

/-- Tokens of `a && b || c`. -/
def toksAndOr (a b c : String) : List Token :=
  [⟨"ID", a, 1, 1⟩, ⟨"LOGIC", "&&", 1, 3⟩, ⟨"ID", b, 1, 6⟩,
   ⟨"LOGIC", "||", 1, 8⟩, ⟨"ID", c, 1, 11⟩, ⟨"SYM", ";", 1, 12⟩]

/-- A two-instruction sequence with a dead assignment, used to
instantiate the dead-code-elimination theorem. -/
def dceDemoIn : List TACInstruction :=
  [ { op := "label", label := some "main" },
    { op := "assign", dest := some "t1", src1 := .str "5" },
    { op := "return", dest := some "a" } ]

/-- What dead-code elimination leaves of `dceDemoIn`: the assignment to
the unused `t1` is dropped. -/
def dceDemoOut : List TACInstruction :=
  [ { op := "label", label := some "main" },
    { op := "return", dest := some "a" } ]

end MiniC

namespace MiniC

/-- Lift `ORel` through `Option.bind`. -/
theorem ORel.bindRel {α β γ δ : Type} {R : α → β → Prop} {S : γ → δ → Prop}
    {x : Option α} {y : Option β} {f : α → Option γ} {g : β → Option δ}
    (hxy : ORel R x y) (hfg : ∀ a b, R a b → ORel S (f a) (g b)) :
    ORel S (x >>= f) (y >>= g) := by
  cases hxy with
  | none => exact ORel.none
  | some h => exact hfg _ _ h

/-- Lift `ORel` through `Option.bind` for `pEq`-related operand results:
the operand strings coincide, so the continuations are compared at the
same operand. -/
theorem ORel.bindRelP {γ δ : Type} {S : γ → δ → Prop}
    {x y : Option (String × IRState)}
    {f : String × IRState → Option γ} {g : String × IRState → Option δ}
    (hxy : ORel pEq x y)
    (hfg : ∀ (r : String) (s1 t1 : IRState), sEq s1 t1 →
      ORel S (f (r, s1)) (g (r, t1))) :
    ORel S (x >>= f) (y >>= g) := by
  cases hxy with
  | none => exact ORel.none
  | some hab =>
    rename_i a b
    obtain ⟨r1, s1⟩ := a
    obtain ⟨r2, t1⟩ := b
    obtain ⟨hr, hs⟩ := hab
    have hr' : r1 = r2 := hr
    subst hr'
    exact hfg r1 s1 t1 hs

/-- Lift `ORel` through `Option.bind` for `aEq`-related argument-list
results. -/
theorem ORel.bindRelA {γ δ : Type} {S : γ → δ → Prop}
    {x y : Option (List String × IRState)}
    {f : List String × IRState → Option γ} {g : List String × IRState → Option δ}
    (hxy : ORel aEq x y)
    (hfg : ∀ (r : List String) (s1 t1 : IRState), sEq s1 t1 →
      ORel S (f (r, s1)) (g (r, t1))) :
    ORel S (x >>= f) (y >>= g) := by
  cases hxy with
  | none => exact ORel.none
  | some hab =>
    rename_i a b
    obtain ⟨r1, s1⟩ := a
    obtain ⟨r2, t1⟩ := b
    obtain ⟨hr, hs⟩ := hab
    have hr' : r1 = r2 := hr
    subst hr'
    exact hfg r1 s1 t1 hs

/-- `emit` preserves state agreement. -/
theorem sEq_emit {s t : IRState} (h : sEq s t) (i : TACInstruction) :
    sEq (emit i s) (emit i t) := by
  obtain ⟨h1, h2, h3⟩ := h
  exact ⟨by simp [emit, h1], by simp [emit, h2], by simp [emit, h3]⟩

mutual

/-- `generate_statement` emits the same code from any two generator
states that agree on the instruction buffer and the counters: the
`symbol_table` field never influences the output. -/
theorem genStmt_rel : ∀ (n : Node) (s t : IRState), sEq s t →
    ORel sEq (genStmt n s) (genStmt n t)
  | .block stmts, s, t, h => by
    simpa only [genStmt] using genStmtList_rel stmts s t h
  | .varDecl _ _ Option.none, s, t, h => by
    simp only [genStmt]
    exact ORel.some ⟨h.1, h.2.1, h.2.2⟩
  | .varDecl _ _ (some e), s, t, h => by
    simp only [genStmt]
    refine ORel.bindRelP (genExpr_rel e s t h) ?_
    intro tmp s1 t1 hs
    refine ORel.bindRel (ORel.some (sEq_emit hs _) :
      ORel sEq (pure _) (pure _)) ?_
    intro s2 t2 hs2
    exact ORel.some ⟨hs2.1, hs2.2.1, hs2.2.2⟩
  | .assignment _ value, s, t, h => by
    simp only [genStmt]
    refine ORel.bindRelP (genExpr_rel value s t h) ?_
    intro tmp s1 t1 hs
    exact ORel.some (sEq_emit hs _)
  | .ifStmt cond thenB elseB, s, t, h => by
    simp only [genStmt]
    refine ORel.bindRelP (genExpr_rel cond s t h) ?_
    intro condTemp s1 t1 hs1
    obtain ⟨g1, g2, g3⟩ := hs1
    simp only [newLabel]
    simp only [g1, g2, g3]
    refine ORel.bindRel (genStmt_rel thenB _ _ (sEq_emit ⟨rfl, rfl, rfl⟩ _)) ?_
    intro s2 t2 hs2
    cases elseB with
    | some e =>
      refine ORel.bindRel (genStmt_rel e _ _ (sEq_emit (sEq_emit hs2 _) _)) ?_
      intro s3 t3 hs3
      exact ORel.some (sEq_emit hs3 _)
    | none => exact ORel.some (sEq_emit (sEq_emit (sEq_emit hs2 _) _) _)
  | .whileStmt cond body, s, t, h => by
    obtain ⟨h1, h2, h3⟩ := h
    simp only [genStmt, newLabel]
    simp only [h1, h2, h3]
    refine ORel.bindRelP (genExpr_rel cond _ _ (sEq_emit ⟨rfl, rfl, rfl⟩ _)) ?_
    intro condTemp s1 t1 hs1
    refine ORel.bindRel (genStmt_rel body _ _ (sEq_emit hs1 _)) ?_
    intro s2 t2 hs2
    exact ORel.some (sEq_emit (sEq_emit hs2 _) _)
  | .forStmt init cond update body, s, t, h => by
    cases init with
    | some si =>
      simp only [genStmt]
      refine ORel.bindRel (genStmt_rel si s t h) ?_
      intro s1 t1 hs1
      obtain ⟨g1, g2, g3⟩ := hs1
      simp only [newLabel]
      simp only [g1, g2, g3]
      cases cond with
      | some c =>
        refine ORel.bindRelP (genExpr_rel c _ _ (sEq_emit ⟨rfl, rfl, rfl⟩ _)) ?_
        intro condTemp s2 t2 hs2
        refine ORel.bindRel (ORel.some (sEq_emit hs2 _) :
          ORel sEq (pure _) (pure _)) ?_
        intro s3 t3 hs3
        refine ORel.bindRel (genStmt_rel body _ _ hs3) ?_
        intro s4 t4 hs4
        cases update with
        | some u =>
          refine ORel.bindRelP (genExpr_rel u _ _ hs4) ?_
          intro u1 s5 t5 hs5
          exact ORel.some (sEq_emit (sEq_emit hs5 _) _)
        | none => exact ORel.some (sEq_emit (sEq_emit hs4 _) _)
      | none =>
        refine ORel.bindRel (ORel.some (sEq_emit ?_ _)) ?_
        · exact ⟨rfl, rfl, rfl⟩
        intro s3 t3 hs3
        refine ORel.bindRel (genStmt_rel body _ _ hs3) ?_
        intro s4 t4 hs4
        cases update with
        | some u =>
          refine ORel.bindRelP (genExpr_rel u _ _ hs4) ?_
          intro u1 s5 t5 hs5
          exact ORel.some (sEq_emit (sEq_emit hs5 _) _)
        | none => exact ORel.some (sEq_emit (sEq_emit hs4 _) _)
    | none =>
      simp only [genStmt]
      refine ORel.bindRel (ORel.some h : ORel sEq (pure s) (pure t)) ?_
      intro s1 t1 hs1
      obtain ⟨g1, g2, g3⟩ := hs1
      simp only [newLabel]
      simp only [g1, g2, g3]
      cases cond with
      | some c =>
        refine ORel.bindRelP (genExpr_rel c _ _ (sEq_emit ⟨rfl, rfl, rfl⟩ _)) ?_
        intro condTemp s2 t2 hs2
        refine ORel.bindRel (ORel.some (sEq_emit hs2 _) :
          ORel sEq (pure _) (pure _)) ?_
        intro s3 t3 hs3
        refine ORel.bindRel (genStmt_rel body _ _ hs3) ?_
        intro s4 t4 hs4
        cases update with
        | some u =>
          refine ORel.bindRelP (genExpr_rel u _ _ hs4) ?_
          intro u1 s5 t5 hs5
          exact ORel.some (sEq_emit (sEq_emit hs5 _) _)
        | none => exact ORel.some (sEq_emit (sEq_emit hs4 _) _)
      | none =>
        refine ORel.bindRel (ORel.some (sEq_emit ?_ _)) ?_
        · exact ⟨rfl, rfl, rfl⟩
        intro s3 t3 hs3
        refine ORel.bindRel (genStmt_rel body _ _ hs3) ?_
        intro s4 t4 hs4
        cases update with
        | some u =>
          refine ORel.bindRelP (genExpr_rel u _ _ hs4) ?_
          intro u1 s5 t5 hs5
          exact ORel.some (sEq_emit (sEq_emit hs5 _) _)
        | none => exact ORel.some (sEq_emit (sEq_emit hs4 _) _)
  | .returnStmt Option.none, s, t, h => by
    simp only [genStmt]
    exact ORel.some (sEq_emit h _)
  | .returnStmt (some e), s, t, h => by
    simp only [genStmt]
    refine ORel.bindRelP (genExpr_rel e s t h) ?_
    intro r s1 t1 hs
    exact ORel.some (sEq_emit hs _)
  | .funcCall name args, s, t, h => by
    simp only [genStmt]
    refine ORel.bindRelA (genArgs_rel args s t h) ?_
    intro as1 s1 t1 hs
    obtain ⟨g1, g2, g3⟩ := hs
    simp only [newTemp]
    simp only [g1, g2, g3]
    exact ORel.some ⟨rfl, rfl, rfl⟩
  | .expr op l r, s, t, h => by
    simp only [genStmt]
    refine ORel.bindRelP (genExpr_rel (.expr op l r) s t h) ?_
    intro r1 s1 t1 hs
    exact ORel.some hs
  | .literal _ _, s, t, h => by
    simp only [genStmt]
    exact ORel.some h
  | .varRef _, s, t, h => by
    simp only [genStmt]
    exact ORel.some h
  | .unaryExpr _ _, s, t, h => by
    simp only [genStmt]
    exact ORel.some h

theorem genStmtList_rel : ∀ (ns : List Node) (s t : IRState), sEq s t →
    ORel sEq (genStmtList ns s) (genStmtList ns t)
  | [], s, t, h => by
    simp only [genStmtList]
    exact ORel.some h
  | n :: rest, s, t, h => by
    simp only [genStmtList]
    exact ORel.bindRel (genStmt_rel n s t h)
      (fun s1 t1 hs1 => genStmtList_rel rest s1 t1 hs1)

theorem genExpr_rel : ∀ (n : Node) (s t : IRState), sEq s t →
    ORel pEq (genExpr n s) (genExpr n t)
  | .literal _ _, s, t, h => by
    obtain ⟨h1, h2, h3⟩ := h
    simp only [genExpr, newTemp]
    simp only [h1, h2, h3]
    exact ORel.some ⟨rfl, rfl, rfl, rfl⟩
  | .varRef _, s, t, h => by
    simp only [genExpr]
    exact ORel.some ⟨rfl, h⟩
  | .unaryExpr _ e, s, t, h => by
    simp only [genExpr]
    refine ORel.bindRelP (genExpr_rel e s t h) ?_
    intro r s1 t1 hs
    obtain ⟨g1, g2, g3⟩ := hs
    simp only [newTemp]
    simp only [g1, g2, g3]
    exact ORel.some ⟨rfl, rfl, rfl, rfl⟩
  | .expr _ l r, s, t, h => by
    simp only [genExpr]
    refine ORel.bindRelP (genExpr_rel l s t h) ?_
    intro lt s1 t1 hs1
    refine ORel.bindRelP (genExpr_rel r s1 t1 hs1) ?_
    intro rt s2 t2 hs2
    obtain ⟨g1, g2, g3⟩ := hs2
    simp only [newTemp]
    simp only [g1, g2, g3]
    exact ORel.some ⟨rfl, rfl, rfl, rfl⟩
  | .assignment _ value, s, t, h => by
    simp only [genExpr]
    refine ORel.bindRelP (genExpr_rel value s t h) ?_
    intro r s1 t1 hs
    exact ORel.some ⟨rfl, sEq_emit hs _⟩
  | .funcCall name args, s, t, h => by
    simp only [genExpr]
    refine ORel.bindRelA (genArgs_rel args s t h) ?_
    intro as1 s1 t1 hs
    obtain ⟨g1, g2, g3⟩ := hs
    simp only [newTemp]
    simp only [g1, g2, g3]
    exact ORel.some ⟨rfl, rfl, rfl, rfl⟩
  | .block _, s, t, _ => by
    simp only [genExpr]
    exact ORel.none
  | .varDecl _ _ _, s, t, _ => by
    simp only [genExpr]
    exact ORel.none
  | .ifStmt _ _ _, s, t, _ => by
    simp only [genExpr]
    exact ORel.none
  | .whileStmt _ _, s, t, _ => by
    simp only [genExpr]
    exact ORel.none
  | .forStmt _ _ _ _, s, t, _ => by
    simp only [genExpr]
    exact ORel.none
  | .returnStmt _, s, t, _ => by
    simp only [genExpr]
    exact ORel.none

theorem genArgs_rel : ∀ (args : List Node) (s t : IRState), sEq s t →
    ORel aEq (genArgs args s) (genArgs args t)
  | [], s, t, h => by
    simp only [genArgs]
    exact ORel.some ⟨rfl, h⟩
  | a :: rest, s, t, h => by
    simp only [genArgs]
    refine ORel.bindRelP (genExpr_rel a s t h) ?_
    intro x s1 t1 hs1
    refine ORel.bindRelA (genArgs_rel rest _ _ (sEq_emit hs1 _)) ?_
    intro ts s2 t2 hs2
    exact ORel.some ⟨rfl, hs2⟩

end

end MiniC

namespace MiniC

/-- The parameter loop of `generate_function` touches only the (unread)
`symbol_table`. -/
theorem foldSym_rel : ∀ (ps : List (String × String)) (s t : IRState), sEq s t →
    sEq (ps.foldl (fun st p => { st with symbolTable := dictSet st.symbolTable p.2 p.1 }) s)
      (ps.foldl (fun st p => { st with symbolTable := dictSet st.symbolTable p.2 p.1 }) t)
  | [], _, _, h => h
  | _ :: rest, _, _, h => foldSym_rel rest _ _ ⟨h.1, h.2.1, h.2.2⟩

theorem generateFunction_rel (f : Function) (s t : IRState) (h : sEq s t) :
    ORel sEq (generateFunction f s) (generateFunction f t) := by
  simp only [generateFunction]
  refine ORel.bindRel
    (genStmt_rel f.body _ _ (foldSym_rel f.params _ _ (sEq_emit h _))) ?_
  intro s1 t1 hs1
  refine ORel.some ?_
  by_cases hv : f.retType = "void"
  · simpa [hv] using sEq_emit hs1 { op := "return" }
  · simpa [hv] using hs1

theorem genFns_rel : ∀ (fs : List Function) (s t : IRState), sEq s t →
    ORel sEq (fs.foldlM (fun st f => generateFunction f st) s)
      (fs.foldlM (fun st f => generateFunction f st) t)
  | [], _, _, h => by
    simpa only [List.foldlM_nil] using (ORel.some h : ORel sEq (pure _) (pure _))
  | f :: rest, s, t, h => by
    simp only [List.foldlM_cons]
    exact ORel.bindRel (generateFunction_rel f s t h)
      (fun s1 t1 h1 => genFns_rel rest s1 t1 h1)

theorem ORel.map_eq {α β γ : Type} {R : α → β → Prop} {x : Option α} {y : Option β}
    {f : α → γ} {g : β → γ} (h : ORel R x y) (hfg : ∀ a b, R a b → f a = g b) :
    x.map f = y.map g := by
  cases h with
  | none => rfl
  | some hab => simpa using hfg _ _ hab

/-- `IRGenerator.generate` emits the same instruction list from any two
generator states: the three fields it does not reset never influence the
output (the `symbol_table` is write-only). -/
theorem generate_state_irrelevant (p : Program) (s t : IRState) :
    generate s p = generate t p := by
  simp only [generate]
  exact ORel.map_eq
    (genFns_rel p.functions
      { s with instructions := [], tempCount := 0, labelCount := 0 }
      { t with instructions := [], tempCount := 0, labelCount := 0 }
      ⟨rfl, rfl, rfl⟩)
    (fun a b hab => hab.1)

end MiniC

namespace MiniC

set_option maxRecDepth 100000

/-- `symSet` followed by lookup of the same key. -/
theorem symLookup_symSet (tab : SymTab) (k : String) (v : Symbol) :
    symLookup (symSet tab k v) k = some v := by
  induction tab with
  | nil => simp [symSet, symLookup]
  | cons p rest ih =>
    by_cases hk : p.1 = k
    · simp [symSet, hk, symLookup]
    · simp [symSet, hk, symLookup, ih]

/-- C1: for `int main(){ int a = 2 + 3 * 4; return a; }` the optimized
TAC is claimed to contain an assignment of the literal `"14"` to the
temporary feeding `a`.  The code disagrees: folding runs once and only
folds `3 * 4` (the propagated `2 + 12` is never folded), and dead-code
elimination then filters with the single final live set, which is empty,
so every assignment is deleted: the optimized TAC is exactly
`[label main, return a]` and no instruction at all has the literal
`"14"` as its source operand. -/
theorem c1_no_fold_to_14_survives :
    generate ⟨[], 0, 0, []⟩ prog1 = some tac1 ∧
    optimize tac1 =
      some [{ op := "label", label := some "main" },
            { op := "return", dest := some "a" }] ∧
    ((optimize tac1).getD []).all
      (fun i => !(i.op = "assign" && i.src1 = Src1.str "14")) = true :=
  ⟨rfl, rfl, rfl⟩

/-- C2: the optimizer is claimed total on well-formed TAC, with binop
folding defined even for a zero right operand of `/` and unop folding
defined for `+`.  The code raises instead: on the valid program
`int main(){ int a = 0; int b = 4 / a; return b; }` propagation turns
the division into `4 / 0` and folding raises `ZeroDivisionError`; a
well-formed `unop` with operator `+` and digit operand raises
`UnboundLocalError` (`result` is assigned only for `-` and `!`).
Folding of an ordinary constant binop does produce the result
instruction. -/
theorem c2_folding_raises :
    (generate ⟨[], 0, 0, []⟩ prog2).bind optimize = Option.none ∧
    constantFolding [binopI "t1" "4" "/ 0"] = Option.none ∧
    constantFolding [unopPlus] = Option.none ∧
    constantFolding [binopI "t1" "2" "+ 3"] =
      some [{ op := "assign", dest := some "t1", src1 := .str "5" }] :=
  ⟨rfl, rfl, rfl, rfl⟩

/-- C3 counterexample: on the token sequence of `a || b && c` the parser
returns `(a || b) && c`, not the claimed `a || (b && c)`: the source
gives `||` precedence 2 and `&&` precedence 1. -/
theorem c3_precedence_counterexample :
    (parseExpression 20 0 ⟨toksOrAnd "a" "b" "c", 0⟩).toOption.map Prod.fst =
      some (Node.expr (some "&&")
        (Node.expr (some "||") (.varRef "a") (.varRef "b")) (.varRef "c")) ∧
    (parseExpression 20 0 ⟨toksOrAnd "a" "b" "c", 0⟩).toOption.map Prod.fst ≠
      some (Node.expr (some "||") (.varRef "a")
        (Node.expr (some "&&") (.varRef "b") (.varRef "c"))) := by
  refine ⟨rfl, ?_⟩
  intro hcontra
  have h1 : (parseExpression 20 0 ⟨toksOrAnd "a" "b" "c", 0⟩).toOption.map Prod.fst =
      some (Node.expr (some "&&")
        (Node.expr (some "||") (.varRef "a") (.varRef "b")) (.varRef "c")) := rfl
  rw [h1] at hcontra
  simp at hcontra

/-- C3 amended: in the parser's expression grammar `||` binds tighter
than `&&` (level 2 is `||`, level 1 is `&&`, higher level binding
tighter): for identifier primaries `a`, `b`, `c`, the token sequence of
`a || b && c` parses to `(a || b) && c` and that of `a && b || c`
parses to `a && (b || c)`, consuming the five expression tokens. -/
theorem c3_or_binds_tighter (a b c : String) :
    parseExpression 20 0 ⟨toksOrAnd a b c, 0⟩ =
      .ok (Node.expr (some "&&")
        (Node.expr (some "||") (.varRef a) (.varRef b)) (.varRef c),
        ⟨toksOrAnd a b c, 5⟩) ∧
    parseExpression 20 0 ⟨toksAndOr a b c, 0⟩ =
      .ok (Node.expr (some "&&") (.varRef a)
        (Node.expr (some "||") (.varRef b) (.varRef c)),
        ⟨toksAndOr a b c, 5⟩) :=
  ⟨rfl, rfl⟩

/-- C4: the constant-propagation rewrite is claimed to substitute only
into operand positions, leaving every `dest` unchanged.  The code also
rewrites `dest` when it is bound in the constants map (source lines
61-62, the known bug of the specification's design notes): after the
pass on the single instruction `a = 5` the destination has become the
literal `5`. -/
theorem c4_propagation_rewrites_dest :
    constantPropagation [{ op := "assign", dest := some "a", src1 := .str "5" }] =
      some [{ op := "assign", dest := some "5", src1 := .str "5" }] := rfl

/-- C5: the claim (and the specification) say `col` is the 1-based
column within the current line, so the second `int` of
`"int main(){\n    int x;\n}"` should have col 5.  The code instead
sets `line_start` to the end of the newline-containing whitespace
lexeme, so the second `int` (token index 5) gets col 1 (and `x` gets
col 5 where its true column is 9). -/
theorem c5_lexer_column_bug :
    tokenize lexExample =
      [⟨"INT_KW", "int", 1, 1⟩, ⟨"ID", "main", 1, 5⟩, ⟨"SYM", "(", 1, 9⟩,
       ⟨"SYM", ")", 1, 10⟩, ⟨"SYM", "\x7b", 1, 11⟩, ⟨"INT_KW", "int", 2, 1⟩,
       ⟨"ID", "x", 2, 5⟩, ⟨"SYM", ";", 2, 6⟩, ⟨"SYM", "\x7d", 3, 1⟩,
       ⟨"EOF", "", 3, 1⟩] ∧
    (tokenize lexExample)[5]? = some ⟨"INT_KW", "int", 2, 1⟩ :=
  ⟨rfl, rfl⟩

/-- C6: CSE is claimed idempotent, but on the straight-line sequence
`ex6` the first pass rewrites with stale group information (the group of
`m` is applied after `m`'s own binding was already renamed to `n`), and
a second pass still finds the group `[n, m, m]` and renames further:
the second application differs from the first. -/
theorem c6_cse_not_idempotent :
    commonSubexpressionElimination ex6 = some ex6once ∧
    commonSubexpressionElimination ex6once = some ex6twice ∧
    ex6once ≠ ex6twice :=
  ⟨rfl, rfl, by decide⟩

/-- C8: the pipeline is deterministic across runs: the embedded stages
are pure functions of their input, `IRGenerator.generate` resets its
instruction buffer and both counters on entry and never reads the one
field it does not reset (`symbol_table`), so it emits the same
instruction list from *any* two generator states; and
`CodeGenerator.generate` likewise resets `assembly` and ignores
`temp_stack`.  Hence reusing components cannot change the TAC or the
pseudo-assembly text. -/
theorem c8_pipeline_deterministic :
    (∀ (p : Program) (s t : IRState), generate s p = generate t p) ∧
    (∀ (st st' : CGState) (l : List TACInstruction),
      codegenGenerate st l = codegenGenerate st' l) :=
  ⟨generate_state_irrelevant, fun _ _ _ => rfl⟩

/-- C10: dead-code elimination only ever deletes `assign`/`binop`/
`unop`/`call` instructions: whenever it terminates normally its output
is a subsequence of the input (order preserved), every
`label`/`jump`/`cjump`/`return`/`param` instruction of the input is in
the output, and so is every instruction whose op is outside the four
deletable kinds. -/
theorem c10_dce_only_deletes_assignments :
    ∀ (l out : List TACInstruction), deadCodeElimination l = some out →
      out.Sublist l ∧
      (∀ i ∈ l, (i.op = "label" ∨ i.op = "jump" ∨ i.op = "cjump" ∨
        i.op = "return" ∨ i.op = "param") → i ∈ out) ∧
      (∀ i ∈ l, ¬(i.op = "assign" ∨ i.op = "binop" ∨ i.op = "unop" ∨
        i.op = "call") → i ∈ out) := by
  intro l out h
  simp only [deadCodeElimination, Option.map_eq_some'] at h
  obtain ⟨live, _hlive, hout⟩ := h
  subst hout
  refine ⟨List.filter_sublist _, ?_, ?_⟩
  · intro i hi hop
    refine List.mem_filter.mpr ⟨hi, ?_⟩
    rcases hop with h | h | h | h | h <;> simp [h]
  · intro i hi hop
    refine List.mem_filter.mpr ⟨hi, ?_⟩
    have hnot : i.op ∉ (["assign", "binop", "unop", "call"] : List String) := by
      simpa using hop
    simp [hnot]

/-- C10 witness: the theorem applied to a concrete run in which the
assignment to the unused `t1` is deleted while the label and the
`return` survive in order. -/
theorem c10_witness :
    dceDemoOut.Sublist dceDemoIn ∧
    (∀ i ∈ dceDemoIn, (i.op = "label" ∨ i.op = "jump" ∨ i.op = "cjump" ∨
      i.op = "return" ∨ i.op = "param") → i ∈ dceDemoOut) ∧
    (∀ i ∈ dceDemoIn, ¬(i.op = "assign" ∨ i.op = "binop" ∨ i.op = "unop" ∨
      i.op = "call") → i ∈ dceDemoOut) :=
  c10_dce_only_deletes_assignments dceDemoIn dceDemoOut rfl

/-- C7: `type_compatible(dst, src)` is true exactly for `dst = src`,
`float ← int`, `int ← char`, and `char ← int`; in every other case it
is false and the analyzer raises the corresponding `SemanticError` at a
declaration (initializer type mismatch), an assignment, or a return
whose expression has the incompatible type `src`. -/
theorem c7_type_compatibility :
    (∀ dst src, typeCompatible dst src = true ↔
      (dst = src ∨ (dst = "float" ∧ src = "int") ∨ (dst = "int" ∧ src = "char") ∨
        (dst = "char" ∧ src = "int"))) ∧
    (∀ (fns : FuncMap) (fuel : Nat) (dst src name : String) (v : PyVal) (tab : SymTab)
        (rt : String),
      symLookup tab name = Option.none → typeCompatible dst src = false →
      walkStmt fns (fuel + 1) (.varDecl dst name (some (.literal v src))) tab rt =
        .error ("Type mismatch initializing " ++ name ++ ": " ++ dst ++ " <- " ++ src)) ∧
    (∀ (fns : FuncMap) (fuel : Nat) (target src : String) (sym : Symbol) (v : PyVal)
        (tab : SymTab) (rt : String),
      symLookup tab target = some sym → typeCompatible sym.typ src = false →
      walkStmt fns (fuel + 1) (.assignment target (.literal v src)) tab rt =
        .error ("Type mismatch in assignment to " ++ target ++ ": " ++
          sym.typ ++ " <- " ++ src)) ∧
    (∀ (fns : FuncMap) (fuel : Nat) (src : String) (v : PyVal) (tab : SymTab) (rt : String),
      typeCompatible rt src = false →
      walkStmt fns (fuel + 1) (.returnStmt (some (.literal v src))) tab rt =
        .error ("Return type mismatch: expected " ++ rt ++ ", got " ++ src)) := by
  refine ⟨?_, ?_, ?_, ?_⟩
  · intro dst src
    unfold typeCompatible
    split_ifs with h1 h2 h3 h4 <;> simp_all
  · intro fns fuel dst src name v tab rt hlook hcompat
    simp [walkStmt, evalExprType, hlook, hcompat]
  · intro fns fuel target src sym v tab rt hlook hcompat
    simp [walkStmt, evalExprType, hlook, hcompat]
  · intro fns fuel src v tab rt hcompat
    simp [walkStmt, evalExprType, hcompat]

/-- C7 witness: `bool ← int` is rejected at a declaration, `bool ← float`
at an assignment, and `bool ← float` at a return, with the source's
error messages. -/
theorem c7_witness :
    typeCompatible "bool" "int" = false ∧
    walkStmt [] 1 (.varDecl "bool" "b" (some (.literal (.int 1) "int"))) [] "int" =
      .error "Type mismatch initializing b: bool <- int" ∧
    walkStmt [] 1 (.assignment "x" (.literal (.int 1) "float"))
      [("x", ⟨"x", "bool", "var"⟩)] "int" =
      .error "Type mismatch in assignment to x: bool <- float" ∧
    walkStmt [] 1 (.returnStmt (some (.literal (.int 1) "float"))) [] "bool" =
      .error "Return type mismatch: expected bool, got float" :=
  ⟨rfl,
   c7_type_compatibility.2.1 [] 0 "bool" "int" "b" (.int 1) [] "int" rfl rfl,
   c7_type_compatibility.2.2.1 [] 0 "x" "float" ⟨"x", "bool", "var"⟩ (.int 1)
     [("x", ⟨"x", "bool", "var"⟩)] "int" rfl rfl,
   c7_type_compatibility.2.2.2 [] 0 "float" (.int 1) [] "bool" rfl⟩

/-- C9: a variable declared in a `for` init clause is recorded in the
*enclosing* symbol table (the init statement is walked on the shared
table, only block bodies get a copy): the walk of the `for` statement
returns the enclosing table extended with the loop variable, a later
declaration of the same name in the same block raises the
duplicate-declaration `SemanticError`, and a later reference to the
name resolves to its type. -/
theorem c9_for_init_leaks_to_enclosing_scope :
    ∀ (fns : FuncMap) (fuel : Nat) (ty ty2 i rt : String) (tab : SymTab)
      (init2 : Option Node),
      symLookup tab i = Option.none →
      (walkStmt fns (fuel + 3) (.forStmt (some (.varDecl ty i Option.none)) Option.none
          Option.none (.block [])) tab rt = .ok (symSet tab i ⟨i, ty, "var"⟩) ∧
       walkBlock fns (fuel + 4) [.forStmt (some (.varDecl ty i Option.none)) Option.none
          Option.none (.block []), .varDecl ty2 i init2] tab rt =
         .error ("Variable " ++ i ++ " already declared") ∧
       evalExprType fns (.varRef i) (symSet tab i ⟨i, ty, "var"⟩) = .ok ty) := by
  intro fns fuel ty ty2 i rt tab init2 hlook
  refine ⟨?_, ?_, ?_⟩
  · simp [walkStmt, walkBlock, isBlock, hlook, pure, Except.pure, bind, Except.bind]
  · simp [walkBlock, walkStmt, isBlock, hlook, symLookup_symSet, pure, Except.pure,
      bind, Except.bind]
  · simp [evalExprType, symLookup_symSet, pure, Except.pure]

/-- C9 witness: `for (int k = ...; ;) {}` followed by `float k;` in the
same block is a duplicate declaration, and `k` still resolves as an
`int` after the loop. -/
theorem c9_witness :
    walkStmt [] 3 (.forStmt (some (.varDecl "int" "k" Option.none)) Option.none Option.none
      (.block [])) [] "int" = .ok [("k", ⟨"k", "int", "var"⟩)] ∧
    walkBlock [] 4 [.forStmt (some (.varDecl "int" "k" Option.none)) Option.none Option.none
      (.block []), .varDecl "float" "k" Option.none] [] "int" =
      .error "Variable k already declared" ∧
    evalExprType [] (.varRef "k") [("k", ⟨"k", "int", "var"⟩)] = .ok "int" :=
  c9_for_init_leaks_to_enclosing_scope [] 0 "int" "float" "k" "int" [] Option.none rfl

end MiniC
